import Mathlib

/-!
Formal model of the Gridcoin contract-processing core
(`src/gridcoin/contract/contract.cpp`): the contract envelope, its
key-resolution policy, the dispatcher and its handlers, and the
pipeline/replay driver, together with theorems about them.

C++ `std::string` values are modelled as lists of characters (`Str`).
External collaborators (wallet keys, the typed payload classes, the
registries, base64/hex codecs, the application cache store, block
storage, ECDSA verification) are modelled at their interface boundary.
-/

namespace GRC

/-- Byte strings of the C++ source (`std::string`) modelled as `List Char`. -/
abbrev Str := List Char

/-- `enum class ContractType` (`gridcoin/contract/contract.h`), including the
out-of-bound sentinel used only for exhaustiveness checks. -/
inductive ContractType
  | UNKNOWN
  | BEACON
  | CLAIM
  | MESSAGE
  | POLL
  | PROJECT
  | PROTOCOL
  | SCRAPER
  | VOTE
  | OUT_OF_BOUND
  deriving DecidableEq

/-- `enum class ContractAction`: ADD, REMOVE, or UNKNOWN (spec section 3). -/
inductive ContractAction
  | UNKNOWN
  | ADD
  | REMOVE
  deriving DecidableEq

/-- `Contract::Type::ToString`. -/
def typeName : ContractType → Str
  | .BEACON => "beacon".toList
  | .CLAIM => "claim".toList
  | .MESSAGE => "message".toList
  | .POLL => "poll".toList
  | .PROJECT => "project".toList
  | .PROTOCOL => "protocol".toList
  | .SCRAPER => "scraper".toList
  | .VOTE => "vote".toList
  | _ => []

/-- `Contract::Type::Parse`. -/
def typeParse (input : Str) : ContractType :=
  if input = "beacon".toList then .BEACON
  else if input = "vote".toList then .VOTE
  else if input = "poll".toList then .POLL
  else if input = "project".toList then .PROJECT
  else if input = "scraper".toList then .SCRAPER
  else if input = "protocol".toList then .PROTOCOL
  else .UNKNOWN

/-- `Contract::Action::ToString`. -/
def actionName : ContractAction → Str
  | .ADD => "A".toList
  | .REMOVE => "D".toList
  | .UNKNOWN => []

/-- `Contract::Action::Parse`. -/
def actionParse (input : Str) : ContractAction :=
  if input = "A".toList then .ADD
  else if input = "D".toList then .REMOVE
  else .UNKNOWN

/-- The payload variants seen by this core.  `empty` is `EmptyPayload`,
`legacy` is `LegacyPayload` with its two string fields.  The typed payload
classes (beacon, poll, project, vote, claim, message payloads) are external
collaborators; they are modelled at their interface boundary by their
contract-type tag, their legacy key/value string projections, the result of
their structural check for each action, and their burn amount. -/
inductive Payload
  | empty
  | legacy (key value : Str)
  | typed (tag : ContractType) (key value : Str)
      (wfAdd wfRemove wfUnknown : Bool) (burn : Int)
  deriving DecidableEq

/-- `IContractPayload::WellFormed(action)`:
`EmptyPayload::WellFormed` is constantly false;
`LegacyPayload::WellFormed` is `!m_key.empty() && (action == REMOVE || !m_value.empty())`;
typed payloads answer their own structural check. -/
def Payload.wellFormed : Payload → ContractAction → Bool
  | .empty, _ => false
  | .legacy k v, a => !k.isEmpty && (decide (a = ContractAction.REMOVE) || !v.isEmpty)
  | .typed _ _ _ wa wr wu _, a =>
    match a with
    | .ADD => wa
    | .REMOVE => wr
    | .UNKNOWN => wu

/-- `IContractPayload::LegacyKeyString`. -/
def Payload.legacyKeyString : Payload → Str
  | .empty => []
  | .legacy k _ => k
  | .typed _ k _ _ _ _ _ => k

/-- `IContractPayload::LegacyValueString`. -/
def Payload.legacyValueString : Payload → Str
  | .empty => []
  | .legacy _ v => v
  | .typed _ _ v _ _ _ _ => v

/-- Whether the payload is the `LegacyPayload` variant. -/
def Payload.isLegacy : Payload → Bool
  | .legacy _ _ => true
  | _ => false

/-- `Contract::Signature`: the raw signature bytes (`std::vector<unsigned char>`). -/
structure Signature where
  bytes : List Nat
  deriving DecidableEq

/-- `Contract::Signature::Viable`: the byte count lies in [64, 73]. -/
def Signature.viable (s : Signature) : Bool :=
  decide (64 ≤ s.bytes.length) && decide (s.bytes.length ≤ 73)

/-- The external `CPubKey` at its interface boundary: opaque bytes plus the
result of its `IsValid` check.  A default-constructed `CPubKey` is invalid. -/
structure PubKeyModel where
  bytes : List Nat
  valid : Bool
  deriving DecidableEq

/-- `Contract::PublicKey::Viable`: `m_key.IsValid()`. -/
def PubKeyModel.viable (p : PubKeyModel) : Bool := p.valid

/-- Modelled from the spec: `Contract::CURRENT_VERSION` is declared in
`gridcoin/contract/contract.h`, which is not part of this file.  The spec
describes version 1 (legacy string) and version 2+ (binary) wire formats,
so the current maximum version is 2. -/
def CURRENT_VERSION : Int := 2

/-- The contract envelope (`class Contract`): version, type, action, body
payload, optional signature, optional embedded public key. -/
structure Contract where
  version : Int
  type : ContractType
  action : ContractAction
  body : Payload
  signature : Signature
  publicKey : PubKeyModel
  deriving DecidableEq

/-- `Contract::RequiresMasterKey`. -/
def Contract.requiresMasterKey (c : Contract) : Bool :=
  match c.type with
  | .BEACON => decide (c.version = 1) && decide (c.action = ContractAction.REMOVE)
  | .POLL => decide (c.action = ContractAction.REMOVE)
  | .PROJECT => true
  | .PROTOCOL => true
  | .SCRAPER => true
  | .VOTE => decide (c.action = ContractAction.REMOVE)
  | _ => false

/-- `Contract::RequiresMessageKey`. -/
def Contract.requiresMessageKey (c : Contract) : Bool :=
  match c.type with
  | .BEACON => decide (c.action = ContractAction.ADD)
  | .POLL => decide (c.action = ContractAction.ADD)
  | .VOTE => decide (c.action = ContractAction.ADD)
  | _ => false

/-- `Contract::RequiresSpecialKey`. -/
def Contract.requiresSpecialKey (c : Contract) : Bool :=
  c.requiresMessageKey || c.requiresMasterKey

/-- The three key sources `Contract::ResolvePublicKey` can return: the fixed
network message key, the wallet master key (`CWallet::MasterPublicKey`,
external), or the contract's own embedded public key. -/
inductive KeySource
  | message
  | master
  | embedded
  deriving DecidableEq

/-- `Contract::ResolvePublicKey`, at the level of which key source it
returns: the message key if `RequiresMessageKey()`, else the master key if
`RequiresMasterKey()`, else the embedded `m_public_key`. -/
def Contract.resolvePublicKeySource (c : Contract) : KeySource :=
  if c.requiresMessageKey then .message
  else if c.requiresMasterKey then .master
  else .embedded

/-- `Contract::WellFormed`. -/
def Contract.wellFormed (c : Contract) : Bool :=
  decide (0 < c.version) && decide (c.version ≤ CURRENT_VERSION)
    && decide (c.type ≠ ContractType.UNKNOWN)
    && decide (c.action ≠ ContractAction.UNKNOWN)
    && c.body.wellFormed c.action
    && (decide (1 < c.version) || c.signature.viable)
    && (decide (1 < c.version) || (c.requiresSpecialKey || c.publicKey.viable))

/-- `Contract::Validate`: `WellFormed()` and, for version 1 only,
`VerifySignature()`.  Signature verification is elliptic-curve cryptography
performed by the external `CKey`; it is passed in as the function `vs`. -/
def Contract.validate (vs : Contract → Bool) (c : Contract) : Bool :=
  c.wellFormed && (decide (1 < c.version) || vs c)

/-- Model of a `uint256` hash result.  The two branches of
`Contract::GetHash` feed different data to the hash function (the whole
serialized envelope for version 2+, the concatenation of type-name string,
legacy key bytes and legacy value bytes for version 1); a hash value is
identified with its preimage (a collision-free idealization of the external
`Hash`/`SerializeHash`). -/
inductive HashModel
  | legacyHash (typeStr key value : Str)
  | envelopeHash (c : Contract)
  deriving DecidableEq

/-- `Contract::GetHash`: for version 2+, a hash of the whole serialized
envelope; for version 1, a hash over the type-name string and the
`LegacyPayload`'s `m_key`/`m_value` bytes (the source static_casts the
payload to `LegacyPayload`, which is guaranteed for v1 contracts; for the
legacy variant the projections below are exactly those fields). -/
def Contract.getHash (c : Contract) : HashModel :=
  if 1 < c.version then .envelopeHash c
  else .legacyHash (typeName c.type) c.body.legacyKeyString c.body.legacyValueString

/-- One entry of the external section-keyed key-value store (AppCache):
a section, a key, a value string and a timestamp.  Modelled from the spec:
the AppCache itself (`gridcoin/appcache.h`) is an external collaborator;
per spec section 4.3 it is keyed by contract type name and legacy key and
timestamped with the transaction time, so sections are identified here by
the contract type-name string (`StringToSection` composed with
`Type::ToString` is the identity on names). -/
structure CacheEntry where
  sec : Str
  key : Str
  value : Str
  time : Int
  deriving DecidableEq

/-- The external section-keyed key-value store, at its interface boundary. -/
abbrev AppCache := List CacheEntry

/-- Whether an entry belongs to the given section and key. -/
def entryMatches (s k : Str) (e : CacheEntry) : Bool :=
  decide (e.sec = s) && decide (e.key = k)

/-- `DeleteCache(section, key)`: remove the entry for the section and key. -/
def deleteCache (s k : Str) (c : AppCache) : AppCache :=
  c.filter (fun e => !entryMatches s k e)

/-- `WriteCache(section, key, value, time)`: store the value and timestamp
under the section and key, replacing any previous entry. -/
def writeCache (s k v : Str) (t : Int) (c : AppCache) : AppCache :=
  deleteCache s k c ++ [⟨s, k, v, t⟩]

/-- Reading the store: the value and timestamp stored under a section and
key, if present. -/
def readCache (s k : Str) (c : AppCache) : Option (Str × Int) :=
  (c.find? (entryMatches s k)).map (fun e => (e.value, e.time))

/-- `ClearCache(section)`: drop every entry of the section. -/
def clearSection (s : Str) (c : AppCache) : AppCache :=
  c.filter (fun e => !decide (e.sec = s))

/-- The external `CTransaction` at its interface boundary: its timestamp
`nTime` and the contracts returned by `GetContracts()`. -/
structure CTransaction where
  nTime : Int
  contracts : List Contract
  deriving DecidableEq

/-- The external `CBlockIndex` at its interface boundary: the fields read
by this core. -/
structure CBlockIndexModel where
  nHeight : Int
  nTime : Int
  nVersion : Int
  nIsContract : Bool
  nIsSuperBlock : Bool
  deriving DecidableEq

/-- `ContractContext`: one contract, the transaction that carried it, and
the containing block index. -/
structure ContractContext where
  contract : Contract
  tx : CTransaction
  pindex : CBlockIndexModel
  deriving DecidableEq

/-- An operation forwarded to one of the external registries
(beacon/poll/project), recorded at the interface boundary, plus the beacon
registry's `ActivatePending` call made during replay. -/
inductive RegOp
  | add (ctx : ContractContext)
  | del (ctx : ContractContext)
  | revert (ctx : ContractContext)
  | activate (verified : List Str) (time : Int)
  deriving DecidableEq

/-- The handler-visible derived state: the AppCache plus the operation
streams sent to the three external registries (POLL and VOTE share the poll
registry), plus the researcher-identity cache's dirty flag
(`Researcher::MarkDirty`, external). -/
structure NodeState where
  appcache : AppCache
  beaconOps : List RegOp
  pollOps : List RegOp
  projectOps : List RegOp
  researcherDirty : Bool
  deriving DecidableEq

/-- The handlers the dispatcher can route to. -/
inductive HandlerTag
  | beacon
  | poll
  | project
  | appcache
  | unknown
  deriving DecidableEq

/-- `Dispatcher::GetHandler`: BEACON to the beacon registry, POLL and VOTE
to the poll registry, PROJECT to the whitelist, PROTOCOL and SCRAPER to the
AppCache bridging handler, everything else to the unknown-type logging
sink. -/
def getHandlerTag : ContractType → HandlerTag
  | .BEACON => .beacon
  | .POLL => .poll
  | .PROJECT => .project
  | .PROTOCOL => .appcache
  | .SCRAPER => .appcache
  | .VOTE => .poll
  | _ => .unknown

/-- `IContractHandler::Add` for each handler.  The external registries
record the forwarded call; `AppCacheContractHandler::Add` writes the legacy
key/value under the type-name section with the transaction time;
`UnknownContractHandler::Add` only logs a warning. -/
def handlerAdd (h : HandlerTag) (ctx : ContractContext) (st : NodeState) : NodeState :=
  match h with
  | .beacon => { st with beaconOps := st.beaconOps ++ [.add ctx] }
  | .poll => { st with pollOps := st.pollOps ++ [.add ctx] }
  | .project => { st with projectOps := st.projectOps ++ [.add ctx] }
  | .appcache =>
    { st with appcache :=
        (writeCache (typeName ctx.contract.type) ctx.contract.body.legacyKeyString
          ctx.contract.body.legacyValueString ctx.tx.nTime st.appcache) }
  | .unknown => st

/-- `IContractHandler::Delete` for each handler.  `AppCacheContractHandler::Delete`
removes the entry for the type-name section and legacy key;
`UnknownContractHandler::Delete` only logs a warning. -/
def handlerDelete (h : HandlerTag) (ctx : ContractContext) (st : NodeState) : NodeState :=
  match h with
  | .beacon => { st with beaconOps := st.beaconOps ++ [.del ctx] }
  | .poll => { st with pollOps := st.pollOps ++ [.del ctx] }
  | .project => { st with projectOps := st.projectOps ++ [.del ctx] }
  | .appcache =>
    { st with appcache :=
        deleteCache (typeName ctx.contract.type) ctx.contract.body.legacyKeyString st.appcache }
  | .unknown => st

/-- The default `IContractHandler::Revert`: reverting an ADD calls Delete,
reverting a REMOVE calls Add, any other action only logs an error. -/
def defaultRevert (h : HandlerTag) (ctx : ContractContext) (st : NodeState) : NodeState :=
  match ctx.contract.action with
  | .ADD => handlerDelete h ctx st
  | .REMOVE => handlerAdd h ctx st
  | .UNKNOWN => st

/-- `Revert` per handler: the external registries receive the forwarded
call (they may override the default); the AppCache handler inherits the
default symmetric revert; the unknown-type sink overrides it to only log. -/
def handlerRevert (h : HandlerTag) (ctx : ContractContext) (st : NodeState) : NodeState :=
  match h with
  | .beacon => { st with beaconOps := st.beaconOps ++ [.revert ctx] }
  | .poll => { st with pollOps := st.pollOps ++ [.revert ctx] }
  | .project => { st with projectOps := st.projectOps ++ [.revert ctx] }
  | .appcache => defaultRevert .appcache ctx st
  | .unknown => st

/-- `Dispatcher::ResetHandlers`: reset the beacon registry, the poll
registry, the whitelist, and the AppCache handler (which clears the
PROTOCOL and SCRAPER sections). -/
def resetHandlers (st : NodeState) : NodeState :=
  { st with
      beaconOps := []
      pollOps := []
      projectOps := []
      appcache := clearSection "scraper".toList (clearSection "protocol".toList st.appcache) }

/-- `Dispatcher::Apply`: ADD calls the handler's Add, REMOVE calls Delete,
any other action only logs a warning. -/
def dispatchApply (ctx : ContractContext) (st : NodeState) : NodeState :=
  match ctx.contract.action with
  | .ADD => handlerAdd (getHandlerTag ctx.contract.type) ctx st
  | .REMOVE => handlerDelete (getHandlerTag ctx.contract.type) ctx st
  | .UNKNOWN => st

/-- `Dispatcher::Revert`: forward to the handler's Revert. -/
def dispatchRevert (ctx : ContractContext) (st : NodeState) : NodeState :=
  handlerRevert (getHandlerTag ctx.contract.type) ctx st

/-- The team-whitelist configuration keys recognized by `ApplyContracts`
(read through `AssumeLegacy`, i.e. the payload's legacy key projection). -/
def hasTeamWhitelistKey (c : Contract) : Bool :=
  decide (c.body.legacyKeyString = "REQUIRE_TEAM_WHITELIST_MEMBERSHIP".toList)
    || decide (c.body.legacyKeyString = "TEAM_WHITELIST".toList)

/-- `Researcher::MarkDirty` (external), at its interface boundary. -/
def markDirty (st : NodeState) : NodeState :=
  { st with researcherDirty := true }

/-- The loop body of `ApplyContracts(tx, pindex, out_found_contract)` over
the transaction's contract list: skip a contract if it is version 1 and
fails `Validate()`; otherwise mark the researcher cache dirty for PROTOCOL
contracts with a team-whitelist key, dispatch the contract, and accumulate
into the found-contract flag whether its type is not MESSAGE. -/
def applyContractsLoop (vs : Contract → Bool) (tx : CTransaction)
    (pindex : CBlockIndexModel) :
    List Contract → NodeState × Bool → NodeState × Bool
  | [], acc => acc
  | c :: rest, acc =>
    applyContractsLoop vs tx pindex rest
      (if decide (c.version = 1) && !(Contract.validate vs c) then acc
       else
         let st1 :=
           if decide (c.type = ContractType.PROTOCOL) && hasTeamWhitelistKey c then
             markDirty acc.1
           else acc.1
         (dispatchApply ⟨c, tx, pindex⟩ st1, acc.2 || decide (c.type ≠ ContractType.MESSAGE)))

/-- `ApplyContracts(tx, pindex, out_found_contract)`.  The flag is an
in/out parameter updated with `|=`, so it is threaded through. -/
def applyContractsTx (vs : Contract → Bool) (tx : CTransaction)
    (pindex : CBlockIndexModel) (acc : NodeState × Bool) : NodeState × Bool :=
  applyContractsLoop vs tx pindex tx.contracts acc

/-- The external `CBlock` at its interface boundary: its transactions, the
verified beacons of its superblock (if any), its block time, and whether
`ReadFromDisk` succeeds for it. -/
structure CBlockModel where
  vtx : List CTransaction
  verifiedBeacons : List Str
  blockTime : Int
  readOk : Bool
  deriving DecidableEq

/-- The transaction loop of `ApplyContracts(block, pindex, out_found_contract)`. -/
def applyBlockLoop (vs : Contract → Bool) (pindex : CBlockIndexModel) :
    List CTransaction → NodeState × Bool → NodeState × Bool
  | [], acc => acc
  | tx :: rest, acc => applyBlockLoop vs pindex rest (applyContractsTx vs tx pindex acc)

/-- `ApplyContracts(block, pindex, out_found_contract)`: set the flag to
false, then apply the contracts of every transaction except the first two
(coinbase and coinstake). -/
def applyContractsBlock (vs : Contract → Bool) (block : CBlockModel)
    (pindex : CBlockIndexModel) (st : NodeState) : NodeState × Bool :=
  applyBlockLoop vs pindex (block.vtx.drop 2) (st, false)

/-- One block of chain history: its index entry and the on-disk block. -/
structure ChainEntry where
  idx : CBlockIndexModel
  blk : CBlockModel
  deriving DecidableEq

/-- Modelled from the spec: `Beacon::MAX_AGE` (`gridcoin/beacon.h`, not
part of this file) is the fixed maximum beacon age bounding the replay
window; 180 days in seconds. -/
def MAX_AGE : Int := 15552000

/-- The network-specific activation height below which no legacy contracts
exist: 1 on testnet, 164618 on mainnet. -/
def activationHeight (fTestNet : Bool) : Int :=
  if fTestNet then 1 else 164618

/-- Modelled from the spec: `BlockFinder::FindByMinTime`
(`gridcoin/support/block_finder.h`, not part of this file) locates the
earliest block whose timestamp is at least the given minimum; the walk
continues from that block.  The chain is given oldest to newest. -/
def findByMinTime (minTime : Int) : List ChainEntry → List ChainEntry
  | [] => []
  | e :: rest => if minTime ≤ e.idx.nTime then e :: rest else findByMinTime minTime rest

/-- One iteration of the replay walk: for a block flagged as containing a
contract, read it from disk (skipping it on failure) and apply its
contracts; for a block flagged as a superblock of format version 11 or
higher whose block data is available, activate the beacons it marks as
verified. -/
def replayStep (vs : Contract → Bool) (st : NodeState) (e : ChainEntry) : NodeState :=
  let st1 :=
    if e.idx.nIsContract && e.blk.readOk then
      (applyContractsBlock vs e.blk e.idx st).1
    else st
  if e.idx.nIsSuperBlock && decide (11 ≤ e.idx.nVersion) && e.blk.readOk then
    { st1 with beaconOps := st1.beaconOps ++ [.activate e.blk.verifiedBeacons e.blk.blockTime] }
  else st1

/-- `Researcher::Refresh` (external), at its interface boundary: the
researcher-identity cache is recomputed, so it is no longer dirty. -/
def researcherRefresh (st : NodeState) : NodeState :=
  { st with researcherDirty := false }

/-- `ReplayContracts(pindex)`: find the earliest block within the maximum
beacon age of the given tip time; if its height is below the
network-specific activation height, return immediately; otherwise reset
all handler state, walk the chain forward applying flagged blocks, and
finally refresh the researcher-identity cache. -/
def replayContracts (vs : Contract → Bool) (chain : List ChainEntry)
    (tipTime : Int) (fTestNet : Bool) (st : NodeState) : NodeState :=
  match findByMinTime (tipTime - MAX_AGE) chain with
  | [] => st
  | start :: rest =>
    if start.idx.nHeight < activationHeight fTestNet then st
    else researcherRefresh (((start :: rest).foldl (replayStep vs) (resetHandlers st)))

/-- The rest of the string after a match of `pat` at the very front, if
the front matches. -/
def matchesAt (pat s : Str) : Option Str :=
  match pat, s with
  | [], rest => some rest
  | _ :: _, [] => none
  | p :: ps, c :: cs => if p = c then matchesAt ps cs else none

/-- Split a string at the first occurrence of `pat`: the part before the
occurrence and the part after it, or `none` when `pat` does not occur. -/
def splitAtSub (pat : Str) : Str → Option (Str × Str)
  | [] => (matchesAt pat []).map (fun rest => ([], rest))
  | c :: cs =>
    match matchesAt pat (c :: cs) with
    | some rest => some ([], rest)
    | none =>
      match splitAtSub pat cs with
      | some pr => some (c :: pr.1, pr.2)
      | none => none

/-- Whether `pat` occurs in `s` (the external `Contains`). -/
def containsSub (s pat : Str) : Bool :=
  (splitAtSub pat s).isSome

/-- Modelled from the spec: `ExtractXML` (`gridcoin/support/xml.h`, not
part of this file) returns the text between the first occurrence of the
opening tag and the next occurrence of the closing tag after it, or the
empty string when either tag is missing. -/
def extractXML (doc openTag closeTag : Str) : Str :=
  match splitAtSub openTag doc with
  | none => []
  | some pr =>
    match splitAtSub closeTag pr.2 with
    | none => []
    | some pr2 => pr2.1

/-- `Contract::Detect`: a non-empty message that holds the `<MT>` tag but
is not the superblock marker. -/
def contractDetect (message : Str) : Bool :=
  !message.isEmpty
    && containsSub message "<MT>".toList
    && !containsSub message "<MT>superblock</MT>".toList

/-- `Contract::Signature::Parse`: an empty field parses to an empty
signature; otherwise the field is base64-decoded.  The codec
(`DecodeBase64`, external) is abstracted as an injective byte coding;
its rejection of malformed input is not modelled. -/
def signatureParse (s : Str) : Signature :=
  if s.isEmpty then ⟨[]⟩ else ⟨s.map Char.toNat⟩

/-- `Contract::Signature::ToString`: empty for an empty signature,
otherwise the base64 text of the bytes (`EncodeBase64`, external,
abstracted as the inverse byte coding). -/
def signatureText (s : Signature) : Str :=
  if s.bytes.isEmpty then [] else s.bytes.map Char.ofNat

/-- `Contract::PublicKey::ToString`: the hex text of the key bytes
(`HexStr`, external, abstracted as a byte coding). -/
def pubKeyText (p : PubKeyModel) : Str :=
  p.bytes.map Char.ofNat

/-- A default-constructed `Contract::PublicKey` (an invalid `CPubKey`). -/
def emptyPubKey : PubKeyModel := ⟨[], false⟩

/-- A default-constructed `Contract()`: current version, UNKNOWN type and
action, empty payload, empty signature and public key. -/
def emptyContract : Contract :=
  { version := CURRENT_VERSION
    type := .UNKNOWN
    action := .UNKNOWN
    body := .empty
    signature := ⟨[]⟩
    publicKey := emptyPubKey }

/-- `Contract::Parse`: an empty message yields an empty invalid contract;
otherwise a version-1 contract with the type, action, legacy key/value and
signature extracted from the `<MT>`, `<MA>`, `<MK>`, `<MV>` and `<MS>` tag
pairs.  The public key field is deliberately not parsed. -/
def contractParse (message : Str) : Contract :=
  if message.isEmpty then emptyContract
  else
    { version := 1
      type := typeParse (extractXML message "<MT>".toList "</MT>".toList)
      action := actionParse (extractXML message "<MA>".toList "</MA>".toList)
      body := .legacy (extractXML message "<MK>".toList "</MK>".toList)
          (extractXML message "<MV>".toList "</MV>".toList)
      signature := signatureParse (extractXML message "<MS>".toList "</MS>".toList)
      publicKey := emptyPubKey }

/-- `Contract::ToString`: a MESSAGE contract serializes only its value in
the `<MESSAGE>` tag; every other contract serializes its type, legacy key,
legacy value, action, public key and signature in the legacy tag pairs. -/
def contractToString (c : Contract) : Str :=
  if c.type = ContractType.MESSAGE then
    "<MESSAGE>".toList ++ c.body.legacyValueString ++ "</MESSAGE>".toList
  else
    "<MT>".toList ++ typeName c.type ++ "</MT>".toList
      ++ "<MK>".toList ++ c.body.legacyKeyString ++ "</MK>".toList
      ++ "<MV>".toList ++ c.body.legacyValueString ++ "</MV>".toList
      ++ "<MA>".toList ++ actionName c.action ++ "</MA>".toList
      ++ "<MPK>".toList ++ pubKeyText c.publicKey ++ "</MPK>".toList
      ++ "<MS>".toList ++ signatureText c.signature ++ "</MS>".toList

/-- A definite character mismatch between `pat` and `t` within the length
of `t`: if it holds, `pat` cannot match at the front of `t ++ s` for any
continuation `s`. -/
def mismatchWithin (pat t : Str) : Bool :=
  match pat, t with
  | [], _ => false
  | _ :: _, [] => false
  | p :: ps, c :: cs => decide (p ≠ c) || mismatchWithin ps cs

/-- `pat` has a definite mismatch at every start position inside `x`, so
the first occurrence of `pat` in `x ++ s` lies at or after `s`. -/
def noMatchThrough (pat : Str) : Str → Bool
  | [] => true
  | c :: cs => mismatchWithin pat (c :: cs) && noMatchThrough pat cs

/-- Equality of the two AppCache stores as observed through `readCache`:
the handler-visible content of the legacy key-value store. -/
def cacheEquiv (c1 c2 : AppCache) : Prop :=
  ∀ s k, readCache s k c1 = readCache s k c2

/-- The skip condition of `ApplyContracts(tx, ...)`: version 1 and failing
`Validate()`. -/
def skipsContract (vs : Contract → Bool) (c : Contract) : Bool :=
  decide (c.version = 1) && !(Contract.validate vs c)

/-- The per-contract state transition of `ApplyContracts(tx, ...)` for a
contract that is not skipped: the researcher-dirty side effect for
PROTOCOL team-whitelist keys, then the dispatch. -/
def contractStep (tx : CTransaction) (pindex : CBlockIndexModel)
    (st : NodeState) (c : Contract) : NodeState :=
  dispatchApply ⟨c, tx, pindex⟩
    (if decide (c.type = ContractType.PROTOCOL) && hasTeamWhitelistKey c then markDirty st
     else st)

/-- Whether a contract would be dispatched and counted by
`ApplyContracts(tx, ...)` with a type other than MESSAGE. -/
def countsAsFound (vs : Contract → Bool) (c : Contract) : Bool :=
  !skipsContract vs c && decide (c.type ≠ ContractType.MESSAGE)

/-- Whether the replay starting point computed by `ReplayContracts` for
this chain and tip time lies below the network's activation height. -/
def replayStartsBelowActivation (chain : List ChainEntry) (tipTime : Int)
    (fTestNet : Bool) : Bool :=
  match findByMinTime (tipTime - MAX_AGE) chain with
  | [] => false
  | e :: _ => decide (e.idx.nHeight < activationHeight fTestNet)

/-- The key-resolution policy table of spec section 4.1, written out pair
by pair, with the (BEACON, ADD) row as the code has it: the fixed message
key signs BEACON, POLL and VOTE additions; the master key signs POLL and
VOTE removals, all PROJECT, PROTOCOL and SCRAPER actions, and BEACON
removals of version-1 contracts; every other combination uses the
contract's embedded key. -/
def policyKeySource (t : ContractType) (a : ContractAction) (version : Int) : KeySource :=
  match t, a with
  | .BEACON, .ADD => .message
  | .BEACON, .REMOVE => if version = 1 then .master else .embedded
  | .POLL, .ADD => .message
  | .POLL, .REMOVE => .master
  | .VOTE, .ADD => .message
  | .VOTE, .REMOVE => .master
  | .PROJECT, _ => .master
  | .PROTOCOL, _ => .master
  | .SCRAPER, _ => .master
  | _, _ => .embedded

/-- A node state with empty derived state everywhere. -/
def emptyState : NodeState :=
  { appcache := []
    beaconOps := []
    pollOps := []
    projectOps := []
    researcherDirty := false }

/-- A concrete version-1 (BEACON, ADD) legacy contract. -/
def beaconAddExample : Contract :=
  { version := 1
    type := .BEACON
    action := .ADD
    body := .legacy "cpid".toList "0123".toList
    signature := ⟨List.replicate 70 1⟩
    publicKey := emptyPubKey }

/-- A concrete version-1 (PROTOCOL, ADD) legacy contract writing key `k`. -/
def protocolAddExample : Contract :=
  { version := 1
    type := .PROTOCOL
    action := .ADD
    body := .legacy "k".toList "new".toList
    signature := ⟨List.replicate 70 1⟩
    publicKey := emptyPubKey }

/-- A context carrying `protocolAddExample` in a transaction at time 7. -/
def protocolAddCtx : ContractContext :=
  { contract := protocolAddExample
    tx := { nTime := 7, contracts := [protocolAddExample] }
    pindex := { nHeight := 200000, nTime := 7, nVersion := 11, nIsContract := true,
                nIsSuperBlock := false } }

/-- A node state whose AppCache already stores `old` under the PROTOCOL
section and key `k` with timestamp 5. -/
def protocolPreState : NodeState :=
  { emptyState with
      appcache := [⟨"protocol".toList, "k".toList, "old".toList, 5⟩] }

/-- A concrete version-2 PROTOCOL contract with legacy key
`TEAM_WHITELIST`. -/
def teamWhitelistContract : Contract :=
  { version := 2
    type := .PROTOCOL
    action := .ADD
    body := .legacy "TEAM_WHITELIST".toList "team1|team2".toList
    signature := ⟨[]⟩
    publicKey := emptyPubKey }

/-- A concrete version-2 PROTOCOL contract with legacy key `OTHER`. -/
def otherKeyContract : Contract :=
  { version := 2
    type := .PROTOCOL
    action := .ADD
    body := .legacy "OTHER".toList "data".toList
    signature := ⟨[]⟩
    publicKey := emptyPubKey }

/-- A transaction carrying one `TEAM_WHITELIST` PROTOCOL contract. -/
def teamWhitelistTx : CTransaction :=
  { nTime := 100, contracts := [teamWhitelistContract] }

/-- A transaction carrying one `OTHER`-keyed PROTOCOL contract. -/
def otherKeyTx : CTransaction :=
  { nTime := 100, contracts := [otherKeyContract] }

/-- A block index at mainnet height 200000. -/
def exampleIndex : CBlockIndexModel :=
  { nHeight := 200000, nTime := 100, nVersion := 11, nIsContract := true,
    nIsSuperBlock := false }

/-- A one-block chain whose block sits at height 0, far below the mainnet
activation height, carrying a contract transaction. -/
def preActivationChain : List ChainEntry :=
  [{ idx := { nHeight := 0, nTime := 0, nVersion := 7, nIsContract := true,
              nIsSuperBlock := false }
     blk := { vtx := [⟨1, []⟩, ⟨1, []⟩, ⟨1, [protocolAddExample]⟩], verifiedBeacons := [],
              blockTime := 0, readOk := true } }]

/-- A node state holding some derived state in every component, used to
observe that an early-returning replay changes nothing. -/
def populatedState : NodeState :=
  { appcache := [⟨"protocol".toList, "k".toList, "old".toList, 5⟩]
    beaconOps := [.activate ["a".toList] 3]
    pollOps := [.activate [] 4]
    projectOps := [.activate [] 5]
    researcherDirty := true }

/-- A context whose contract has the UNKNOWN action and a CLAIM type. -/
def unknownActionCtx : ContractContext :=
  { contract :=
      { version := 1
        type := .CLAIM
        action := .UNKNOWN
        body := .legacy "k".toList "v".toList
        signature := ⟨[]⟩
        publicKey := emptyPubKey }
    tx := { nTime := 1, contracts := [] }
    pindex := exampleIndex }

/-- A version-1 contract carrying a legacy payload, the shape produced by
`Contract::Parse` for a legacy contract message. -/
def legacyV1Contract (t : ContractType) (a : ContractAction) (k v : Str)
    (sig : Signature) (pk : PubKeyModel) : Contract :=
  { version := 1
    type := t
    action := a
    body := .legacy k v
    signature := sig
    publicKey := pk }

/-- Claim C1, counterexample: for a version-1 (BEACON, ADD) contract,
`ResolvePublicKey` returns the fixed message key, not the contract's own
embedded public key as the claim states. -/
theorem c1_beacon_add_counterexample :
    beaconAddExample.resolvePublicKeySource = KeySource.message
      ∧ beaconAddExample.resolvePublicKeySource ≠ KeySource.embedded := by
  decide

/-- Claim C1 (amended): for every contract, `ResolvePublicKey` returns
exactly the key source given by the policy table with the (BEACON, ADD)
row as implemented: the fixed message key for (BEACON, ADD), (POLL, ADD)
and (VOTE, ADD); the wallet master key for (POLL, REMOVE), (VOTE, REMOVE),
all PROJECT/PROTOCOL/SCRAPER actions, and (BEACON, REMOVE) only when the
version is 1; and the contract's own embedded public key otherwise. -/
theorem c1_key_resolution_policy (c : Contract) :
    c.resolvePublicKeySource = policyKeySource c.type c.action c.version := by
  cases htype : c.type <;> cases haction : c.action <;>
    simp [Contract.resolvePublicKeySource, Contract.requiresMessageKey,
      Contract.requiresMasterKey, policyKeySource, htype, haction]

/-- Claim C2: for version-1 contracts carrying a legacy payload, `GetHash`
hashes exactly the type-name string and the legacy key and value bytes, so
two such contracts agreeing on type, key and value have equal hashes
whatever their action, signature and public key. -/
theorem c2_v1_hash_fields (a b : Contract)
    (ha : a.version = 1) (hb : b.version = 1)
    (hla : a.body.isLegacy = true) (hlb : b.body.isLegacy = true)
    (ht : a.type = b.type)
    (hk : a.body.legacyKeyString = b.body.legacyKeyString)
    (hv : a.body.legacyValueString = b.body.legacyValueString) :
    a.getHash = b.getHash
      ∧ a.getHash
          = HashModel.legacyHash (typeName a.type) a.body.legacyKeyString
              a.body.legacyValueString := by
  constructor
  · simp [Contract.getHash, ha, hb, ht, hk, hv]
  · simp [Contract.getHash, ha]

/-- Claim C2, witness: two concrete version-1 BEACON contracts differing in
action, signature and public key share the same hash. -/
theorem c2_v1_hash_witness :
    Contract.getHash beaconAddExample
      = Contract.getHash
          { beaconAddExample with
              action := ContractAction.REMOVE
              signature := ⟨[]⟩
              publicKey := ⟨[2], true⟩ } :=
  (c2_v1_hash_fields beaconAddExample
    { beaconAddExample with
        action := ContractAction.REMOVE
        signature := ⟨[]⟩
        publicKey := ⟨[2], true⟩ }
    (by decide) (by decide) (by decide) (by decide) (by decide) (by decide)
    (by decide)).1

/-- Claim C5: `WellFormed()` holds exactly when the version is positive and
at most the current maximum, type and action are not UNKNOWN, the payload's
own structural check passes, and, for version 1, the signature is viable
and either a policy-implied special key or a viable embedded key is
present; moreover whenever type or action is UNKNOWN or the payload check
fails, `WellFormed()` is false no matter the signature and public key. -/
theorem c5_well_formed (c : Contract) :
    (c.wellFormed = true ↔
      (0 < c.version ∧ c.version ≤ CURRENT_VERSION
        ∧ c.type ≠ ContractType.UNKNOWN
        ∧ c.action ≠ ContractAction.UNKNOWN
        ∧ c.body.wellFormed c.action = true
        ∧ (1 < c.version ∨ c.signature.viable = true)
        ∧ (1 < c.version ∨ (c.requiresSpecialKey = true ∨ c.publicKey.viable = true))))
    ∧ ∀ sig pk,
        (c.type = ContractType.UNKNOWN ∨ c.action = ContractAction.UNKNOWN
            ∨ c.body.wellFormed c.action = false) →
          Contract.wellFormed { c with signature := sig, publicKey := pk } = false := by
  constructor
  · simp [Contract.wellFormed, and_assoc]
  · intro sig pk h
    rcases h with h | h | h <;>
      simp [Contract.wellFormed, Contract.requiresSpecialKey, h]

/-- Claim C5, witness: a contract of UNKNOWN type is not well-formed, with
any signature and public key. -/
theorem c5_well_formed_witness :
    Contract.wellFormed
        { emptyContract with
            signature := ⟨List.replicate 70 1⟩
            publicKey := ⟨[2], true⟩ } = false :=
  (c5_well_formed emptyContract).2 ⟨List.replicate 70 1⟩ ⟨[2], true⟩ (Or.inl rfl)

/-- Claim C10: the legacy payload's structural check holds exactly when the
key is non-empty and either the action is REMOVE or the value is
non-empty; a REMOVE payload with an empty value can be well-formed, while
an ADD payload with an empty value never is. -/
theorem c10_legacy_payload_well_formed (k v : Str) :
    (∀ a, Payload.wellFormed (.legacy k v) a = true
        ↔ (k ≠ [] ∧ (a = ContractAction.REMOVE ∨ v ≠ [])))
      ∧ (Payload.wellFormed (.legacy k []) .REMOVE = true ↔ k ≠ [])
      ∧ Payload.wellFormed (.legacy k []) .ADD = false := by
  refine ⟨fun a => ?_, ?_, ?_⟩
  · cases a <;> simp [Payload.wellFormed, List.isEmpty_iff]
  · simp [Payload.wellFormed, List.isEmpty_iff]
  · simp [Payload.wellFormed, List.isEmpty_iff]

/-- Claim C9: `Dispatcher::Apply` with an action that is neither ADD nor
REMOVE calls no handler and leaves the state unchanged; CLAIM, MESSAGE,
UNKNOWN and the out-of-bound sentinel are all routed to the unknown-type
logging sink, whose Add, Delete and Revert mutate no state. -/
theorem c9_unknown_routing (ctx : ContractContext) (st : NodeState)
    (h : ctx.contract.action = ContractAction.UNKNOWN) :
    dispatchApply ctx st = st
      ∧ (getHandlerTag ContractType.CLAIM = HandlerTag.unknown
          ∧ getHandlerTag ContractType.MESSAGE = HandlerTag.unknown
          ∧ getHandlerTag ContractType.UNKNOWN = HandlerTag.unknown
          ∧ getHandlerTag ContractType.OUT_OF_BOUND = HandlerTag.unknown)
      ∧ ∀ (c2 : ContractContext) (s2 : NodeState),
          handlerAdd HandlerTag.unknown c2 s2 = s2
            ∧ handlerDelete HandlerTag.unknown c2 s2 = s2
            ∧ handlerRevert HandlerTag.unknown c2 s2 = s2 := by
  refine ⟨?_, ⟨rfl, rfl, rfl, rfl⟩, fun c2 s2 => ⟨rfl, rfl, rfl⟩⟩
  simp [dispatchApply, h]

/-- Claim C9, witness: dispatching a CLAIM contract with the UNKNOWN action
leaves a populated state untouched. -/
theorem c9_unknown_routing_witness :
    dispatchApply unknownActionCtx populatedState = populatedState :=
  (c9_unknown_routing unknownActionCtx populatedState rfl).1

/-- Claim C6: when the replay starting block computed by `ReplayContracts`
sits below the network-specific activation height, the replay performs no
handler reset and no contract application and returns with the handler
state unchanged. -/
theorem c6_replay_below_activation (vs : Contract → Bool)
    (chain : List ChainEntry) (tipTime : Int) (fTestNet : Bool) (st : NodeState)
    (h : replayStartsBelowActivation chain tipTime fTestNet = true) :
    replayContracts vs chain tipTime fTestNet st = st := by
  unfold replayStartsBelowActivation at h
  unfold replayContracts
  cases hfind : findByMinTime (tipTime - MAX_AGE) chain with
  | nil => rfl
  | cons e rest =>
    rw [hfind] at h
    simp only [decide_eq_true_eq] at h
    simp [h]

/-- Claim C6, witness: a replay whose starting block sits at height 0 on
mainnet leaves a populated state unchanged. -/
theorem c6_replay_below_activation_witness :
    replayStartsBelowActivation preActivationChain 15552000 false = true
      ∧ replayContracts (fun _ => true) preActivationChain 15552000 false populatedState
          = populatedState :=
  ⟨by decide,
   c6_replay_below_activation (fun _ => true) preActivationChain 15552000 false
     populatedState (by decide)⟩

/-- Deleting a key that the store does not hold leaves the store unchanged. -/
theorem deleteCache_of_readCache_none (s k : Str) (c : AppCache)
    (h : readCache s k c = none) : deleteCache s k c = c := by
  have h2 : c.find? (entryMatches s k) = none := by
    unfold readCache at h
    cases hf : c.find? (entryMatches s k) <;> simp [hf] at h ⊢
  refine List.filter_eq_self.mpr ?_
  intro a ha
  have := List.find?_eq_none.mp h2 a ha
  simp [this]

/-- Deleting a key twice is the same as deleting it once. -/
theorem deleteCache_idem (s k : Str) (c : AppCache) :
    deleteCache s k (deleteCache s k c) = deleteCache s k c := by
  unfold deleteCache
  rw [List.filter_filter]
  simp [Bool.and_self]

/-- Writing back exactly the value and timestamp that the store already
holds under a key, after deleting that key, is invisible to every read. -/
theorem readCache_write_back (s k v : Str) (t : Int) (c : AppCache)
    (h : readCache s k c = some (v, t)) :
    cacheEquiv (writeCache s k v t (deleteCache s k c)) c := by
  intro s2 k2
  unfold writeCache
  rw [deleteCache_idem]
  unfold readCache
  rw [List.find?_append]
  by_cases hm : entryMatches s2 k2 (⟨s, k, v, t⟩ : CacheEntry) = true
  · have hs : s = s2 ∧ k = k2 := by simpa [entryMatches] using hm
    obtain ⟨hs2, hk2⟩ := hs
    subst hs2
    subst hk2
    have hnone : (deleteCache s k c).find? (entryMatches s k) = none := by
      rw [List.find?_eq_none]
      intro x hx
      have := (List.mem_filter.mp hx).2
      simp only [Bool.not_eq_true'] at this
      simp [this]
    unfold readCache at h
    simp only [hnone, List.find?, entryMatches]
    simp [h]
  · have hone : (List.find? (entryMatches s2 k2) [(⟨s, k, v, t⟩ : CacheEntry)]) = none := by
      simp only [List.find?]
      simp [Bool.not_eq_true] at hm
      simp [hm]
    have hdel : (deleteCache s k c).find? (entryMatches s2 k2)
        = c.find? (entryMatches s2 k2) := by
      unfold deleteCache
      rw [List.find?_filter]
      congr 1
      funext a
      by_cases hpa : entryMatches s2 k2 a = true
      · have hnm : entryMatches s k a = false := by
          by_contra hc
          simp only [Bool.not_eq_false] at hc
          simp only [entryMatches, Bool.and_eq_true, decide_eq_true_eq] at hpa hc
          have e1 : s = s2 := by rw [← hc.1, hpa.1]
          have e2 : k = k2 := by rw [← hc.2, hpa.2]
          exact hm (by simp [entryMatches, e1, e2])
        simp [hnm, hpa]
      · simp [hpa]
    rw [hdel, hone]
    cases c.find? (entryMatches s2 k2) <;> rfl

/-- Claim C3, counterexample: with the AppCache handler (which uses the
default symmetric Revert), applying a PROTOCOL ADD over an existing entry
and then reverting it deletes the entry instead of restoring the old
value, so the handler-visible state does not return to its pre-apply
snapshot. -/
theorem c3_apply_revert_counterexample :
    dispatchRevert protocolAddCtx (dispatchApply protocolAddCtx protocolPreState)
        ≠ protocolPreState
      ∧ readCache "protocol".toList "k".toList
            (dispatchRevert protocolAddCtx
              (dispatchApply protocolAddCtx protocolPreState)).appcache
          ≠ readCache "protocol".toList "k".toList protocolPreState.appcache := by
  decide

/-- Claim C3 (amended): for the AppCache bridging handler — the handler in
this core that uses the default symmetric Revert — applying a contract and
then reverting it restores the handler-visible state to the pre-apply
snapshot provided the store already agrees with what the revert rewrites:
for an ADD, no entry exists under the contract's section and key; for a
REMOVE, the existing entry holds exactly the contract's value with the
transaction's timestamp. -/
theorem c3_apply_revert_restores (st : NodeState) (ctx : ContractContext)
    (k v : Str)
    (hbody : ctx.contract.body = Payload.legacy k v)
    (htag : getHandlerTag ctx.contract.type = HandlerTag.appcache)
    (hcase :
      (ctx.contract.action = ContractAction.ADD
          ∧ readCache (typeName ctx.contract.type) k st.appcache = none)
        ∨ (ctx.contract.action = ContractAction.REMOVE
          ∧ readCache (typeName ctx.contract.type) k st.appcache
              = some (v, ctx.tx.nTime))) :
    cacheEquiv (dispatchRevert ctx (dispatchApply ctx st)).appcache st.appcache
      ∧ (dispatchRevert ctx (dispatchApply ctx st)).beaconOps = st.beaconOps
      ∧ (dispatchRevert ctx (dispatchApply ctx st)).pollOps = st.pollOps
      ∧ (dispatchRevert ctx (dispatchApply ctx st)).projectOps = st.projectOps
      ∧ (dispatchRevert ctx (dispatchApply ctx st)).researcherDirty
          = st.researcherDirty := by
  rcases hcase with ⟨ha, hr⟩ | ⟨ha, hr⟩
  · have hfin : dispatchRevert ctx (dispatchApply ctx st)
        = { st with appcache :=
              (deleteCache (typeName ctx.contract.type) k
                (writeCache (typeName ctx.contract.type) k v ctx.tx.nTime st.appcache)) } := by
      simp [dispatchApply, dispatchRevert, ha, htag, handlerAdd, handlerDelete,
        handlerRevert, defaultRevert, hbody, Payload.legacyKeyString,
        Payload.legacyValueString]
    have hcache : deleteCache (typeName ctx.contract.type) k
        (writeCache (typeName ctx.contract.type) k v ctx.tx.nTime st.appcache)
        = st.appcache := by
      unfold writeCache deleteCache
      rw [List.filter_append]
      have h1 := deleteCache_of_readCache_none _ _ _ hr
      unfold deleteCache at h1
      rw [h1, h1]
      simp [entryMatches]
    rw [hfin, hcache]
    exact ⟨fun s2 k2 => rfl, rfl, rfl, rfl, rfl⟩
  · have hfin : dispatchRevert ctx (dispatchApply ctx st)
        = { st with appcache :=
              (writeCache (typeName ctx.contract.type) k v ctx.tx.nTime
                (deleteCache (typeName ctx.contract.type) k st.appcache)) } := by
      simp [dispatchApply, dispatchRevert, ha, htag, handlerAdd, handlerDelete,
        handlerRevert, defaultRevert, hbody, Payload.legacyKeyString,
        Payload.legacyValueString]
    rw [hfin]
    exact ⟨readCache_write_back _ _ _ _ _ hr, rfl, rfl, rfl, rfl⟩

/-- Claim C3, witness: applying the concrete PROTOCOL ADD contract to an
empty store and reverting it restores the empty store. -/
theorem c3_apply_revert_restores_witness :
    cacheEquiv (dispatchRevert protocolAddCtx
        (dispatchApply protocolAddCtx emptyState)).appcache emptyState.appcache :=
  (c3_apply_revert_restores emptyState protocolAddCtx "k".toList "new".toList
    rfl rfl (Or.inl ⟨rfl, by decide⟩)).1

/-- The contract loop of `ApplyContracts(tx, ...)`, written with the named
skip condition and per-contract step. -/
theorem applyContractsLoop_cons (vs : Contract → Bool) (tx : CTransaction)
    (pindex : CBlockIndexModel) (c : Contract) (rest : List Contract)
    (acc : NodeState × Bool) :
    applyContractsLoop vs tx pindex (c :: rest) acc
      = applyContractsLoop vs tx pindex rest
          (if skipsContract vs c then acc
           else (contractStep tx pindex acc.1 c,
                 acc.2 || decide (c.type ≠ ContractType.MESSAGE))) := rfl

/-- The contract loop of `ApplyContracts(tx, ...)` equals a fold of the
per-contract step over the non-skipped contracts, with the found-contract
flag accumulating whether any non-skipped contract has a non-MESSAGE type. -/
theorem applyContractsLoop_eq (vs : Contract → Bool) (tx : CTransaction)
    (pindex : CBlockIndexModel) (l : List Contract) (st : NodeState) (found : Bool) :
    applyContractsLoop vs tx pindex l (st, found)
      = ((l.filter (fun c => !skipsContract vs c)).foldl (contractStep tx pindex) st,
         found || l.any (countsAsFound vs)) := by
  induction l generalizing st found with
  | nil => simp [applyContractsLoop]
  | cons c rest ih =>
    rw [applyContractsLoop_cons]
    by_cases hs : skipsContract vs c = true
    · simp [hs, ih, countsAsFound]
    · have hs' : skipsContract vs c = false := by simpa using hs
      simp [hs', ih, countsAsFound, Bool.or_assoc]

/-- The transaction loop of the block-level `ApplyContracts` as a fold,
with the flag accumulating over the transactions. -/
theorem applyBlockLoop_eq (vs : Contract → Bool) (pindex : CBlockIndexModel)
    (txs : List CTransaction) (st : NodeState) (found : Bool) :
    applyBlockLoop vs pindex txs (st, found)
      = (txs.foldl
            (fun s tx =>
              (tx.contracts.filter (fun c => !skipsContract vs c)).foldl
                (contractStep tx pindex) s) st,
         found || txs.any (fun tx => tx.contracts.any (countsAsFound vs))) := by
  induction txs generalizing st found with
  | nil => simp [applyBlockLoop]
  | cons tx rest ih =>
    simp only [applyBlockLoop, applyContractsTx, applyContractsLoop_eq, ih,
      List.foldl_cons, List.any_cons, Bool.or_assoc]

/-- Claim C7: `ApplyContracts` on a transaction dispatches exactly the
embedded contracts that are not both version 1 and failing `Validate()`,
and ors into the found-contract flag whether some non-skipped contract has
a type other than MESSAGE; on a block it starts from a false flag and does
this for every transaction except the first two. -/
theorem c7_apply_contracts (vs : Contract → Bool) (pindex : CBlockIndexModel) :
    (∀ (tx : CTransaction) (st : NodeState) (found : Bool),
        applyContractsTx vs tx pindex (st, found)
          = ((tx.contracts.filter (fun c => !skipsContract vs c)).foldl
                (contractStep tx pindex) st,
             found || tx.contracts.any (countsAsFound vs)))
      ∧ ∀ (block : CBlockModel) (st : NodeState),
          applyContractsBlock vs block pindex st
            = ((block.vtx.drop 2).foldl
                  (fun s tx =>
                    (tx.contracts.filter (fun c => !skipsContract vs c)).foldl
                      (contractStep tx pindex) s) st,
               (block.vtx.drop 2).any
                 (fun tx => tx.contracts.any (countsAsFound vs))) := by
  constructor
  · intro tx st found
    exact applyContractsLoop_eq vs tx pindex tx.contracts st found
  · intro block st
    unfold applyContractsBlock
    rw [applyBlockLoop_eq]
    simp

/-- Dispatching a contract never touches the researcher-dirty flag. -/
theorem dispatchApply_researcherDirty (ctx : ContractContext) (st : NodeState) :
    (dispatchApply ctx st).researcherDirty = st.researcherDirty := by
  cases ha : ctx.contract.action <;>
    simp only [dispatchApply, ha] <;>
    cases hg : getHandlerTag ctx.contract.type <;>
      simp [handlerAdd, handlerDelete]

/-- The per-contract step sets the researcher-dirty flag exactly for
PROTOCOL contracts with a recognized team-whitelist key. -/
theorem contractStep_researcherDirty (tx : CTransaction)
    (pindex : CBlockIndexModel) (st : NodeState) (c : Contract) :
    (contractStep tx pindex st c).researcherDirty
      = (st.researcherDirty
          || (decide (c.type = ContractType.PROTOCOL) && hasTeamWhitelistKey c)) := by
  unfold contractStep
  rw [dispatchApply_researcherDirty]
  by_cases h : (decide (c.type = ContractType.PROTOCOL) && hasTeamWhitelistKey c) = true
  · simp [h, markDirty]
  · have h' : (decide (c.type = ContractType.PROTOCOL) && hasTeamWhitelistKey c) = false := by
      simpa using h
    simp [h']

/-- Folding the per-contract step over a contract list sets the dirty flag
exactly when some contract in the list is PROTOCOL with a team key. -/
theorem foldl_contractStep_researcherDirty (tx : CTransaction)
    (pindex : CBlockIndexModel) (l : List Contract) (st : NodeState) :
    (l.foldl (contractStep tx pindex) st).researcherDirty
      = (st.researcherDirty
          || l.any (fun c => decide (c.type = ContractType.PROTOCOL)
              && hasTeamWhitelistKey c)) := by
  induction l generalizing st with
  | nil => simp
  | cons c rest ih =>
    simp [List.foldl_cons, ih, contractStep_researcherDirty, Bool.or_assoc]

/-- Claim C8: during `ApplyContracts` on a transaction, the researcher
cache is marked dirty exactly when some non-skipped contract is
PROTOCOL-typed with a recognized team-whitelist configuration key; in
particular a PROTOCOL contract with legacy key `TEAM_WHITELIST` sets the
flag, and one with legacy key `OTHER` does not. -/
theorem c8_researcher_dirty (vs : Contract → Bool) (tx : CTransaction)
    (pindex : CBlockIndexModel) (st : NodeState) (found : Bool) :
    ((applyContractsTx vs tx pindex (st, found)).1.researcherDirty
        = (st.researcherDirty
            || tx.contracts.any (fun c =>
                !skipsContract vs c
                  && (decide (c.type = ContractType.PROTOCOL)
                      && hasTeamWhitelistKey c))))
      ∧ (applyContractsTx (fun _ => true) teamWhitelistTx exampleIndex
            (emptyState, false)).1.researcherDirty = true
      ∧ (applyContractsTx (fun _ => true) otherKeyTx exampleIndex
            (emptyState, false)).1.researcherDirty = false := by
  refine ⟨?_, by decide, by decide⟩
  unfold applyContractsTx
  rw [applyContractsLoop_eq]
  simp only [foldl_contractStep_researcherDirty, List.any_filter]

/-- A pattern matches at the front of itself followed by anything. -/
theorem matchesAt_self_append (p s : Str) : matchesAt p (p ++ s) = some s := by
  induction p with
  | nil => rfl
  | cons c cs ih => simp [matchesAt, ih]

/-- Splitting at a pattern that sits at the very front. -/
theorem splitAtSub_self (pat s : Str) : splitAtSub pat (pat ++ s) = some ([], s) := by
  cases pat with
  | nil => cases s <;> rfl
  | cons p ps =>
    have hm := matchesAt_self_append (p :: ps) s
    simp only [List.cons_append] at hm ⊢
    simp [splitAtSub, hm]

/-- A definite mismatch within `t` rules out a front match of `pat` on
`t ++ s` for every continuation `s`. -/
theorem matchesAt_eq_none_of_mismatch (pat t s : Str)
    (h : mismatchWithin pat t = true) : matchesAt pat (t ++ s) = none := by
  induction pat generalizing t with
  | nil => simp [mismatchWithin] at h
  | cons p ps ih =>
    cases t with
    | nil => simp [mismatchWithin] at h
    | cons c cs =>
      simp only [mismatchWithin, Bool.or_eq_true, decide_eq_true_eq] at h
      simp only [List.cons_append, matchesAt]
      rcases h with h | h
      · rw [if_neg h]
      · by_cases hpc : p = c
        · rw [if_pos hpc]
          exact ih cs h
        · rw [if_neg hpc]

/-- Stepping the split over a segment inside which the pattern certainly
does not start. -/
theorem splitAtSub_append_noMatch (pat x s : Str)
    (h : noMatchThrough pat x = true) :
    splitAtSub pat (x ++ s)
      = (splitAtSub pat s).map (fun pr => (x ++ pr.1, pr.2)) := by
  induction x with
  | nil =>
    simp only [List.nil_append]
    cases hsp : splitAtSub pat s <;> simp
  | cons c cs ih =>
    simp only [noMatchThrough, Bool.and_eq_true] at h
    obtain ⟨h1, h2⟩ := h
    have hm : matchesAt pat (c :: (cs ++ s)) = none := by
      rw [← List.cons_append]
      exact matchesAt_eq_none_of_mismatch pat (c :: cs) s h1
    have ihn := ih h2
    cases hsp : splitAtSub pat s with
    | none =>
      rw [hsp] at ihn
      simp only [Option.map_none'] at ihn
      simp only [List.cons_append, splitAtSub, List.append_eq, hm, ihn, Option.map_none']
    | some pr =>
      rw [hsp] at ihn
      simp only [Option.map_some'] at ihn
      simp only [List.cons_append, splitAtSub, List.append_eq, hm, ihn, Option.map_some',
        List.cons_append]

/-- Stepping the split over a segment free of the tag-opening character
when the pattern starts with it. -/
theorem splitAtSub_append_clean (pat x s : Str) (hp : pat.head? = some '<')
    (hx : ∀ ch ∈ x, ch ≠ '<') :
    splitAtSub pat (x ++ s)
      = (splitAtSub pat s).map (fun pr => (x ++ pr.1, pr.2)) := by
  cases pat with
  | nil => simp at hp
  | cons p ps =>
    simp only [List.head?] at hp
    have hplt : p = '<' := by injection hp
    subst hplt
    induction x with
    | nil =>
      simp only [List.nil_append]
      cases hsp : splitAtSub ('<' :: ps) s <;> simp
    | cons c cs ih =>
      have hc : c ≠ '<' := hx c (List.mem_cons_self c cs)
      have hcs : ∀ ch ∈ cs, ch ≠ '<' := fun ch hm2 => hx ch (List.mem_cons_of_mem c hm2)
      have hm : matchesAt ('<' :: ps) (c :: (cs ++ s)) = none := by
        simp only [matchesAt]
        rw [if_neg (fun he => hc he.symm)]
      have ihn := ih hcs
      cases hsp : splitAtSub ('<' :: ps) s with
      | none =>
        rw [hsp] at ihn
        simp only [Option.map_none'] at ihn
        simp only [List.cons_append, splitAtSub, List.append_eq, hm, ihn, Option.map_none']
      | some pr =>
        rw [hsp] at ihn
        simp only [Option.map_some'] at ihn
        simp only [List.cons_append, splitAtSub, List.append_eq, hm, ihn, Option.map_some',
          List.cons_append]

/-- No contract type name contains the tag-opening character. -/
theorem typeName_noLT (t : ContractType) : ∀ ch ∈ typeName t, ch ≠ '<' := by
  cases t <;> decide

/-- No action name contains the tag-opening character. -/
theorem actionName_noLT (a : ContractAction) : ∀ ch ∈ actionName a, ch ≠ '<' := by
  cases a <;> decide

/-- Claim C4: parsing a well-formed legacy contract message of a
non-MESSAGE type and serializing the result reproduces equivalent type,
action, key and value fields.  A well-formed legacy message is one whose
type field names one of the six legacy-parsable types, whose action field
is a known action, and whose key and value contain no tag-opening
character. -/
theorem c4_parse_tostring_roundtrip (t : ContractType) (a : ContractAction)
    (k v : Str) (sig : Signature) (pk : PubKeyModel)
    (ht : t = ContractType.BEACON ∨ t = ContractType.POLL ∨ t = ContractType.PROJECT
        ∨ t = ContractType.PROTOCOL ∨ t = ContractType.SCRAPER ∨ t = ContractType.VOTE)
    (ha : a ≠ ContractAction.UNKNOWN)
    (hk : ∀ ch ∈ k, ch ≠ '<') (hv : ∀ ch ∈ v, ch ≠ '<') :
    (contractParse (contractToString (legacyV1Contract t a k v sig pk))).type = t
      ∧ (contractParse (contractToString (legacyV1Contract t a k v sig pk))).action = a
      ∧ (contractParse (contractToString
            (legacyV1Contract t a k v sig pk))).body.legacyKeyString = k
      ∧ (contractParse (contractToString
            (legacyV1Contract t a k v sig pk))).body.legacyValueString = v := by
  have htm : t ≠ ContractType.MESSAGE := by
    rcases ht with rfl | rfl | rfl | rfl | rfl | rfl <;> decide
  have hparse_t : typeParse (typeName t) = t := by
    rcases ht with rfl | rfl | rfl | rfl | rfl | rfl <;> decide
  have hparse_a : actionParse (actionName a) = a := by
    cases a with
    | UNKNOWN => exact absurd rfl ha
    | ADD => decide
    | REMOVE => decide
  have htm2 : (legacyV1Contract t a k v sig pk).type ≠ ContractType.MESSAGE := htm
  have hJ : ∃ junk : Str, contractToString (legacyV1Contract t a k v sig pk)
      = "<MT>".toList ++ (typeName t ++ ("</MT>".toList ++ ("<MK>".toList ++ (k ++
          ("</MK>".toList ++ ("<MV>".toList ++ (v ++ ("</MV>".toList ++ ("<MA>".toList ++
          (actionName a ++ ("</MA>".toList ++ junk))))))))))) := by
    refine ⟨"<MPK>".toList ++ (pubKeyText pk ++ ("</MPK>".toList ++ ("<MS>".toList ++
      (signatureText sig ++ "</MS>".toList)))), ?_⟩
    unfold contractToString
    rw [if_neg htm2]
    simp only [List.append_assoc]
    rfl
  obtain ⟨junk, hts⟩ := hJ
  have hne : (contractToString (legacyV1Contract t a k v sig pk)).isEmpty = false := by
    rw [hts]
    rfl
  have eMT : extractXML (contractToString (legacyV1Contract t a k v sig pk))
      "<MT>".toList "</MT>".toList = typeName t := by
    rw [hts]
    have h1 := splitAtSub_self "<MT>".toList
      (typeName t ++ ("</MT>".toList ++ ("<MK>".toList ++ (k ++ ("</MK>".toList ++
        ("<MV>".toList ++ (v ++ ("</MV>".toList ++ ("<MA>".toList ++ (actionName a ++
        ("</MA>".toList ++ junk)))))))))))
    have h2 : splitAtSub "</MT>".toList
        (typeName t ++ ("</MT>".toList ++ ("<MK>".toList ++ (k ++ ("</MK>".toList ++
          ("<MV>".toList ++ (v ++ ("</MV>".toList ++ ("<MA>".toList ++ (actionName a ++
          ("</MA>".toList ++ junk)))))))))))
        = some (typeName t ++ [],
            "<MK>".toList ++ (k ++ ("</MK>".toList ++ ("<MV>".toList ++ (v ++
              ("</MV>".toList ++ ("<MA>".toList ++ (actionName a ++
              ("</MA>".toList ++ junk))))))))) := by
      rw [splitAtSub_append_clean "</MT>".toList (typeName t) _ (by decide)
        (typeName_noLT t), splitAtSub_self]
      rfl
    simp only [extractXML, h1, h2]
    simp
  have eMK : extractXML (contractToString (legacyV1Contract t a k v sig pk))
      "<MK>".toList "</MK>".toList = k := by
    rw [hts]
    have h1 : ∃ B, splitAtSub "<MK>".toList
        ("<MT>".toList ++ (typeName t ++ ("</MT>".toList ++ ("<MK>".toList ++ (k ++
          ("</MK>".toList ++ ("<MV>".toList ++ (v ++ ("</MV>".toList ++ ("<MA>".toList ++
          (actionName a ++ ("</MA>".toList ++ junk))))))))))))
        = some (B, k ++ ("</MK>".toList ++ ("<MV>".toList ++ (v ++ ("</MV>".toList ++
            ("<MA>".toList ++ (actionName a ++ ("</MA>".toList ++ junk)))))))) :=
      ⟨_, by
      rw [splitAtSub_append_noMatch "<MK>".toList "<MT>".toList _ (by decide),
        splitAtSub_append_clean "<MK>".toList (typeName t) _ (by decide) (typeName_noLT t),
        splitAtSub_append_noMatch "<MK>".toList "</MT>".toList _ (by decide),
        splitAtSub_self]
      rfl⟩
    obtain ⟨B, h1⟩ := h1
    have h2 : splitAtSub "</MK>".toList
        (k ++ ("</MK>".toList ++ ("<MV>".toList ++ (v ++ ("</MV>".toList ++
          ("<MA>".toList ++ (actionName a ++ ("</MA>".toList ++ junk))))))))
        = some (k ++ [], "<MV>".toList ++ (v ++ ("</MV>".toList ++
            ("<MA>".toList ++ (actionName a ++ ("</MA>".toList ++ junk)))))) := by
      rw [splitAtSub_append_clean "</MK>".toList k _ (by decide) hk, splitAtSub_self]
      rfl
    simp only [extractXML, h1, h2]
    simp
  have eMV : extractXML (contractToString (legacyV1Contract t a k v sig pk))
      "<MV>".toList "</MV>".toList = v := by
    rw [hts]
    have h1 : ∃ B, splitAtSub "<MV>".toList
        ("<MT>".toList ++ (typeName t ++ ("</MT>".toList ++ ("<MK>".toList ++ (k ++
          ("</MK>".toList ++ ("<MV>".toList ++ (v ++ ("</MV>".toList ++ ("<MA>".toList ++
          (actionName a ++ ("</MA>".toList ++ junk))))))))))))
        = some (B, v ++ ("</MV>".toList ++ ("<MA>".toList ++ (actionName a ++
            ("</MA>".toList ++ junk))))) :=
      ⟨_, by
      rw [splitAtSub_append_noMatch "<MV>".toList "<MT>".toList _ (by decide),
        splitAtSub_append_clean "<MV>".toList (typeName t) _ (by decide) (typeName_noLT t),
        splitAtSub_append_noMatch "<MV>".toList "</MT>".toList _ (by decide),
        splitAtSub_append_noMatch "<MV>".toList "<MK>".toList _ (by decide),
        splitAtSub_append_clean "<MV>".toList k _ (by decide) hk,
        splitAtSub_append_noMatch "<MV>".toList "</MK>".toList _ (by decide),
        splitAtSub_self]
      rfl⟩
    obtain ⟨B, h1⟩ := h1
    have h2 : splitAtSub "</MV>".toList
        (v ++ ("</MV>".toList ++ ("<MA>".toList ++ (actionName a ++
          ("</MA>".toList ++ junk)))))
        = some (v ++ [], "<MA>".toList ++ (actionName a ++ ("</MA>".toList ++ junk))) := by
      rw [splitAtSub_append_clean "</MV>".toList v _ (by decide) hv, splitAtSub_self]
      rfl
    simp only [extractXML, h1, h2]
    simp
  have eMA : extractXML (contractToString (legacyV1Contract t a k v sig pk))
      "<MA>".toList "</MA>".toList = actionName a := by
    rw [hts]
    have h1 : ∃ B, splitAtSub "<MA>".toList
        ("<MT>".toList ++ (typeName t ++ ("</MT>".toList ++ ("<MK>".toList ++ (k ++
          ("</MK>".toList ++ ("<MV>".toList ++ (v ++ ("</MV>".toList ++ ("<MA>".toList ++
          (actionName a ++ ("</MA>".toList ++ junk))))))))))))
        = some (B, actionName a ++ ("</MA>".toList ++ junk)) :=
      ⟨_, by
      rw [splitAtSub_append_noMatch "<MA>".toList "<MT>".toList _ (by decide),
        splitAtSub_append_clean "<MA>".toList (typeName t) _ (by decide) (typeName_noLT t),
        splitAtSub_append_noMatch "<MA>".toList "</MT>".toList _ (by decide),
        splitAtSub_append_noMatch "<MA>".toList "<MK>".toList _ (by decide),
        splitAtSub_append_clean "<MA>".toList k _ (by decide) hk,
        splitAtSub_append_noMatch "<MA>".toList "</MK>".toList _ (by decide),
        splitAtSub_append_noMatch "<MA>".toList "<MV>".toList _ (by decide),
        splitAtSub_append_clean "<MA>".toList v _ (by decide) hv,
        splitAtSub_append_noMatch "<MA>".toList "</MV>".toList _ (by decide),
        splitAtSub_self]
      rfl⟩
    obtain ⟨B, h1⟩ := h1
    have h2 : splitAtSub "</MA>".toList (actionName a ++ ("</MA>".toList ++ junk))
        = some (actionName a ++ [], junk) := by
      rw [splitAtSub_append_clean "</MA>".toList (actionName a) _ (by decide)
        (actionName_noLT a), splitAtSub_self]
      rfl
    simp only [extractXML, h1, h2]
    simp
  refine ⟨?_, ?_, ?_, ?_⟩
  · simp only [contractParse, hne, Bool.false_eq_true, if_false]
    simp only [eMT]
    exact hparse_t
  · simp only [contractParse, hne, Bool.false_eq_true, if_false]
    simp only [eMA]
    exact hparse_a
  · simp only [contractParse, hne, Bool.false_eq_true, if_false]
    simp only [Payload.legacyKeyString, eMK]
  · simp only [contractParse, hne, Bool.false_eq_true, if_false]
    simp only [Payload.legacyValueString, eMV]

/-- Claim C4, witness: a concrete BEACON ADD legacy contract round-trips
through `ToString` and `Parse` with identical fields. -/
theorem c4_parse_tostring_roundtrip_witness :
    (contractParse (contractToString
        (legacyV1Contract ContractType.BEACON ContractAction.ADD
          "cpid".toList "0123".toList ⟨List.replicate 70 1⟩ emptyPubKey))).type
        = ContractType.BEACON
      ∧ (contractParse (contractToString
          (legacyV1Contract ContractType.BEACON ContractAction.ADD
            "cpid".toList "0123".toList ⟨List.replicate 70 1⟩ emptyPubKey))).action
          = ContractAction.ADD
      ∧ (contractParse (contractToString
          (legacyV1Contract ContractType.BEACON ContractAction.ADD
            "cpid".toList "0123".toList
            ⟨List.replicate 70 1⟩ emptyPubKey))).body.legacyKeyString
          = "cpid".toList
      ∧ (contractParse (contractToString
          (legacyV1Contract ContractType.BEACON ContractAction.ADD
            "cpid".toList "0123".toList
            ⟨List.replicate 70 1⟩ emptyPubKey))).body.legacyValueString
          = "0123".toList :=
  c4_parse_tostring_roundtrip ContractType.BEACON ContractAction.ADD
    "cpid".toList "0123".toList ⟨List.replicate 70 1⟩ emptyPubKey
    (Or.inl rfl) (by decide) (by decide) (by decide)
